import Mathlib

/-!
Verification of the coro-http HTTP I/O core (curl-backed client in
src/coro/curl_http.cc and the evhttp-based server in http_server.h) against
its natural-language specification.

The embedding is byte-level: C strings are lists of byte values (`List Nat`),
machine integers (CURLcode results, HTTP status codes) are `Int`, libevent
user events are an explicit FIFO activation queue, and every transport-side
callback of the source is a pure Lean function on an explicit state record.
Observable effects towards the downstream consumer (chunks delivered by
`ReceivedData`, terminal `Close` calls) are collected as lists of
observations so that ordering properties can be stated.
-/

namespace CoroHttp

/-- C `isspace` on ASCII: space (32), tab (9), LF (10), VT (11), FF (12), CR (13). -/
def isWs (b : Nat) : Bool := b == 32 || (9 ≤ b && b ≤ 13)

/-- Modelled from the spec: `ToLowerCase` (helper declared in coro/http/http.h,
not part of the provided sources) lowercases header names; ASCII per-byte
tolower. -/
def ToLowerCase (s : List Nat) : List Nat :=
  s.map (fun b => if 65 ≤ b ∧ b ≤ 90 then b + 32 else b)

/-- Drop leading whitespace. -/
def trimStart (s : List Nat) : List Nat := s.dropWhile isWs

/-- Drop trailing whitespace. -/
def trimEnd (s : List Nat) : List Nat := (s.reverse.dropWhile isWs).reverse

/-- Modelled from the spec: `TrimWhitespace` (helper declared in
coro/http/http.h, not part of the provided sources) trims leading and
trailing whitespace from header values. -/
def TrimWhitespace (s : List Nat) : List Nat := trimEnd (trimStart s)

/-- Index of the first `:` (byte 58) in a header line, as in
`view.find_first_of(':')`. -/
def findColon : List Nat → Option Nat
  | [] => none
  | b :: rest => if b = 58 then some 0 else (findColon rest).map (· + 1)

/-- Does the line start with the bytes of `HTTP`, as in
`view.starts_with("HTTP")`. -/
def startsWithHTTP : List Nat → Bool
  | 72 :: 84 :: 84 :: 80 :: _ => true
  | _ => false

/-- Accumulate the value of a decimal digit run (stops at the first
non-digit), as `operator>>(int)` and `std::stoll` do after the sign. -/
def digitRunVal : List Nat → Nat → Nat
  | [], acc => acc
  | b :: rest, acc =>
    if 48 ≤ b ∧ b ≤ 57 then digitRunVal rest (acc * 10 + (b - 48)) else acc

/-- Parse a digit run; fails (like stream extraction failure or
`std::stoll` throwing) when the first byte is not a digit. -/
def parseDigits : List Nat → Option Nat
  | [] => none
  | b :: rest => if 48 ≤ b ∧ b ≤ 57 then some (digitRunVal (b :: rest) 0) else none

/-- Split a byte string on whitespace runs, as repeated `>>` extraction into
strings would tokenize it. -/
def splitWsAux : List Nat → List Nat → List (List Nat)
  | [], cur => if cur = [] then [] else [cur.reverse]
  | b :: rest, cur =>
    if isWs b then
      (if cur = [] then splitWsAux rest [] else cur.reverse :: splitWsAux rest [])
    else splitWsAux rest (b :: cur)

/-- Whitespace tokens of a byte string. -/
def splitWs (s : List Nat) : List (List Nat) := splitWsAux s []

/-- Parse a (signed) integer token the way `operator>>(int)` does: optional
sign then a digit run; an extraction failure leaves 0 (value-initialized
since C++11). -/
def parseIntTok (t : List Nat) : Int :=
  match t with
  | 45 :: rest => match parseDigits rest with
    | some v => -(v : Int)
    | none => 0
  | 43 :: rest => ((parseDigits rest).getD 0 : Nat)
  | _ => ((parseDigits t).getD 0 : Nat)

/-- The status code extracted from an `HTTP...` status line by
`stream >> http_version >> code` in `CurlHandle::HeaderCallback`: skip the
first whitespace token, parse the second as an int. -/
def parseStatusLine (line : List Nat) : Int :=
  parseIntTok ((splitWs line).getD 1 [])

/-- `std::stoll`: skip leading whitespace, optional sign, digit run; `none`
models the `std::invalid_argument` throw when no digits follow. -/
def stollBytes (v : List Nat) : Option Int :=
  match v.dropWhile isWs with
  | 45 :: rest => (parseDigits rest).map (fun n => -(n : Int))
  | 43 :: rest => (parseDigits rest).map (fun n => (n : Int))
  | t => (parseDigits t).map (fun n => (n : Int))

/-- Errors propagated through `exception_ptr` slots: `HttpException(code,
curl_easy_strerror(code))` (the message is determined by the code, so only
the code is kept) and `InterruptedException`. -/
inductive Err
  | http (code : Int)
  | interrupted
deriving DecidableEq, Repr

/-- Terminal value of a body stream's `Close`: either a numeric status or an
error. -/
inductive CloseVal
  | status (s : Int)
  | failure (e : Err)
deriving DecidableEq, Repr

/-- Effects observable by the downstream consumer of a body stream, in
order: a chunk handed to `ReceivedData`, or the terminal `Close`. -/
inductive Obs
  | received (data : List Nat)
  | closedStatus (s : Int)
  | closedErr (e : Err)
deriving DecidableEq, Repr

/-- The two libevent user events of `CurlHttpBodyGenerator`. -/
inductive GenEvent
  | chunkReady
  | bodyReady
deriving DecidableEq, Repr

/-- `evuser_trigger`: activate a user event; activating an event already in
the active queue is a no-op. -/
def activate (e : GenEvent) (l : List GenEvent) : List GenEvent :=
  if e ∈ l then l else l ++ [e]

/-- State of a `CurlHttpBodyGenerator` together with the base-class
bookkeeping it inherits. `pending` is the FIFO queue of its activated user
events; `buffered` models the base class's `GetBufferedByteCount()`;
`closedWith` models the base class's recorded terminal close. -/
structure GenState where
  status : Int := -1
  exc : Option Err := none
  data_ : List Nat := []
  bodyReadyFired : Bool := false
  buffered : Nat := 0
  pending : List GenEvent := []
  closedWith : Option CloseVal := none
deriving DecidableEq, Repr

/-- A freshly constructed `CurlHttpBodyGenerator` before `ReceivedData` of
the initial chunk: `status_ = -1`, no exception, empty `data_`. -/
def genInit : GenState :=
  { status := -1, exc := none, data_ := [], bodyReadyFired := false
    buffered := 0, pending := [], closedWith := none }

/-- Modelled from the spec: `HttpBodyGenerator::ReceivedData` (base class in
coro/http/http_body_generator.h, not part of the provided sources) hands a
chunk to the downstream consumer and adds its size to the buffered-byte
count. -/
def ReceivedData (g : GenState) (data : List Nat) : GenState × List Obs :=
  ({ g with buffered := g.buffered + data.length }, [Obs.received data])

/-- Modelled from the spec: `HttpBodyGenerator::Close(status)` (base class,
not part of the provided sources); at most one terminal close is recorded
and later calls are idempotent. -/
def CloseStatus (g : GenState) (s : Int) : GenState × List Obs :=
  match g.closedWith with
  | some _ => (g, [])
  | none => ({ g with closedWith := some (CloseVal.status s) }, [Obs.closedStatus s])

/-- Modelled from the spec: `HttpBodyGenerator::Close(exception)` (base
class, not part of the provided sources); at most one terminal close is
recorded and later calls are idempotent. -/
def CloseErr (g : GenState) (e : Err) : GenState × List Obs :=
  match g.closedWith with
  | some _ => (g, [])
  | none => ({ g with closedWith := some (CloseVal.failure e) }, [Obs.closedErr e])

/-- `CurlHttpBodyGenerator::OnChunkReady`: move `data_` out, and if the
transfer already completed (`status_ != -1`) and `body_ready` has not fired
yet, mark it fired and trigger `body_ready`; then hand the moved chunk to
`ReceivedData`. -/
def OnChunkReady (g : GenState) : GenState × List Obs :=
  let data := g.data_
  let g1 := { g with data_ := [] }
  let g2 :=
    if g1.status ≠ -1 ∧ g1.bodyReadyFired = false then
      { g1 with bodyReadyFired := true, pending := activate GenEvent.bodyReady g1.pending }
    else g1
  ReceivedData g2 data

/-- `CurlHttpBodyGenerator::OnBodyReady`: close the stream with the stored
exception if there is one, otherwise with the stored `status_`. -/
def OnBodyReady (g : GenState) : GenState × List Obs :=
  match g.exc with
  | some e => CloseErr g e
  | none => CloseStatus g g.status

/-- Body-stream-owner branch of `CurlHttpImpl::ProcessEvents` for a
`CURLMSG_DONE` message with result `result`: store the result cast to int
into `status_`, record an `HttpException` when the result is not `CURLE_OK`
(0), and trigger `body_ready` immediately unless `chunk_ready` is still in
the active queue (`EVLIST_ACTIVE`). -/
def ProcessEventsGenDone (result : Int) (g : GenState) : GenState :=
  let g1 := { g with status := result }
  let g2 := if result ≠ 0 then { g1 with exc := some (Err.http result) } else g1
  if GenEvent.chunkReady ∈ g2.pending then g2
  else { g2 with bodyReadyFired := true, pending := activate GenEvent.bodyReady g2.pending }

/-- Dispatch one activated user event of the body generator. -/
def dispatchGenEvent (g : GenState) (e : GenEvent) : GenState × List Obs :=
  match e with
  | GenEvent.chunkReady => OnChunkReady g
  | GenEvent.bodyReady => OnBodyReady g

/-- Run the event loop on the generator's activated events in FIFO order
(libevent dequeues an event before running its callback), collecting the
observations; fuel bounds the number of dispatches. -/
def drainEvents : Nat → GenState → List Obs
  | 0, _ => []
  | fuel + 1, g =>
    match g.pending with
    | [] => []
    | e :: rest =>
      let p := dispatchGenEvent { g with pending := rest } e
      p.2 ++ drainEvents fuel p.1

/-- `CurlHttpBodyGenerator::Resume`: `curl_easy_pause(CURLPAUSE_RECV_CONT)`
is issued iff `status_ == -1` and no exception is stored; the returned
`Bool` records whether the transport handle was touched. -/
def Resume (g : GenState) : Bool :=
  g.status == -1 && g.exc == none

/-- State of a `CurlHttpOperation` (the pending-operation owner of a
Handle). `awaiting` models a non-null `awaiting_coroutine_`. -/
structure OpState where
  status : Int := -1
  exc : Option Err := none
  headers : List (List Nat × List Nat) := []
  body_ : List Nat := []
  noBody : Bool := false
  headersReadyPosted : Bool := false
  awaiting : Bool := false
deriving DecidableEq, Repr

/-- `CurlHandle::Owner`: the variant currently bound as the sink of
transport callbacks. -/
inductive OwnerModel
  | op (o : OpState)
  | gen (g : GenState)
deriving DecidableEq, Repr

/-- The per-Handle state relevant to cleanup: `registered` models a
non-null `http_` pointer, i.e. the easy handle still being registered with
the multiplexer. -/
structure HandleModel where
  registered : Bool := true
deriving DecidableEq, Repr

/-- `CurlHandle::Cleanup`: remove the easy handle from the multi handle if
still registered; idempotent. -/
def Cleanup (h : HandleModel) : HandleModel := { h with registered := false }

/-- Result of `CurlHandle::HandleException`: the updated handle and owner,
whether an awaiting coroutine was resumed, and the consumer-visible
observations. -/
structure HxResult where
  handle : HandleModel
  owner : OwnerModel
  resumedWaiter : Bool
  obs : List Obs
deriving DecidableEq, Repr

/-- `CurlHandle::HandleException`: remove the Handle from the multiplexer
(`Cleanup`), record the error on the current owner, and resume any waiter
(resume the operation's awaiting coroutine, or `Close` the body stream with
the error). -/
def HandleException (h : HandleModel) (ow : OwnerModel) (e : Err) : HxResult :=
  match ow with
  | OwnerModel.op o =>
    { handle := Cleanup h
      owner := OwnerModel.op { o with exc := some e, awaiting := false }
      resumedWaiter := o.awaiting
      obs := [] }
  | OwnerModel.gen g =>
    let g1 := { g with exc := some e }
    let p := CloseErr g1 e
    { handle := Cleanup h, owner := OwnerModel.gen p.1, resumedWaiter := false, obs := p.2 }

/-- `CurlHandle::OnCancel::operator()`: the stop callback invokes
`HandleException` with an `InterruptedException`. -/
def OnCancel (h : HandleModel) (ow : OwnerModel) : HxResult :=
  HandleException h ow Err.interrupted

/-- `CurlHandle::ProgressCallback`: returns -1 (aborting the transfer) iff
the stop token has requested stop. -/
def ProgressCallback (stopRequested : Bool) : Int :=
  if stopRequested then -1 else 0

/-- Result of the transport write callback: the `CURL_WRITEFUNC_PAUSE`
sentinel, or acceptance of `n` bytes. -/
inductive WriteResult
  | paused
  | accepted (n : Nat)
deriving DecidableEq, Repr

/-- `CurlHandle::WriteCallback`. Operation owner: post `headers_ready` once
and append the bytes to the operation's `body_`. Body-stream owner: refuse
the bytes with the pause sentinel when an unconsumed chunk sits in `data_`
or `GetBufferedByteCount() > 0`; otherwise append them to `data_` and
trigger `chunk_ready`. -/
def WriteCallback (ow : OwnerModel) (bytes : List Nat) : OwnerModel × WriteResult :=
  match ow with
  | OwnerModel.op o =>
    let o1 := if o.headersReadyPosted = false then { o with headersReadyPosted := true } else o
    (OwnerModel.op { o1 with body_ := o1.body_ ++ bytes }, WriteResult.accepted bytes.length)
  | OwnerModel.gen g =>
    if g.data_ ≠ [] ∨ 0 < g.buffered then (OwnerModel.gen g, WriteResult.paused)
    else
      (OwnerModel.gen
        { g with data_ := g.data_ ++ bytes, pending := activate GenEvent.chunkReady g.pending },
       WriteResult.accepted bytes.length)

/-- `CurlHandle::HeaderCallback`: returns 0 unless a pending operation owns
the Handle; a line containing `:` appends a (lowercased name,
whitespace-trimmed value) pair; otherwise a line starting with `HTTP`
clears the header list and records the parsed status code. -/
def HeaderCallback (ow : OwnerModel) (line : List Nat) : OwnerModel × Nat :=
  match ow with
  | OwnerModel.gen g => (OwnerModel.gen g, 0)
  | OwnerModel.op o =>
    match findColon line with
    | some i =>
      (OwnerModel.op
        { o with headers :=
            o.headers ++ [(ToLowerCase (line.take i), TrimWhitespace (line.drop (i + 1)))] },
       line.length)
    | none =>
      if startsWithHTTP line then
        (OwnerModel.op { o with headers := [], status := parseStatusLine line }, line.length)
      else (OwnerModel.op o, line.length)

/-- Operation-owner branch of `CurlHttpImpl::ProcessEvents` for a
`CURLMSG_DONE` message: on `CURLE_OK` read `CURLINFO_RESPONSE_CODE` into
`status_`, otherwise record an `HttpException`; set `no_body_`; the
awaiting coroutine is resumed via a zero-delay `event_base_once` post (the
returned `Bool`). -/
def ProcessEventsOpDone (result : Int) (respCode : Int) (o : OpState) : OpState × Bool :=
  let o1 :=
    if result = 0 then { o with status := respCode }
    else { o with exc := some (Err.http result) }
  ({ o1 with noBody := true, awaiting := false }, true)

/-- `CurlHttpBodyGenerator`'s constructor: a fresh generator state fed the
initial chunk through `ReceivedData`. -/
def mkBodyGen (initialChunk : List Nat) : GenState × List Obs :=
  ReceivedData genInit initialChunk

/-- The `Response` produced by `CurlHttpOperation::await_resume`: status,
headers, the body generator's state and the observations its construction
produced. -/
structure RespModel where
  status : Int
  headers : List (List Nat × List Nat)
  body : GenState
  bodyObs : List Obs
deriving DecidableEq, Repr

/-- `CurlHttpOperation::await_resume`: rethrow a stored exception;
otherwise build the `Response`, moving the Handle and the header-phase
buffered bytes into a new body generator, and `Close` it with the status
when `no_body_` is set. -/
def awaitResumeOp (o : OpState) : Except Err RespModel :=
  match o.exc with
  | some e => Except.error e
  | none =>
    let p := mkBodyGen o.body_
    let q := if o.noBody then CloseStatus p.1 o.status else (p.1, [])
    Except.ok { status := o.status, headers := o.headers, body := q.1, bodyObs := p.2 ++ q.2 }

/-- HTTP request methods (coro/http/http.h); only `kPost` is distinguished
by the upload configuration. -/
inductive Method
  | kGet
  | kPost
  | kPut
  | kHead
  | kPatch
  | kDelete
  | kOptions
deriving DecidableEq, Repr

/-- The transport options the `CurlHandle` constructor sets for a request
body: post-mode (`CURLOPT_POST` with `CURLOPT_POSTFIELDSIZE_LARGE`) or
upload-mode (`CURLOPT_UPLOAD` with `CURLOPT_INFILESIZE_LARGE`). -/
inductive CurlOpt
  | post (v : Int)
  | postFieldSizeLarge (v : Int)
  | upload (v : Int)
  | inFileSizeLarge (v : Int)
deriving DecidableEq, Repr

/-- The part of a `Request<>` that decides the body-upload configuration. -/
structure RequestModel where
  method : Method
  headers : List (List Nat × List Nat)
  hasBody : Bool
deriving DecidableEq, Repr

/-- The bytes of the string `content-length`. -/
def contentLengthBytes : List Nat :=
  [99, 111, 110, 116, 101, 110, 116, 45, 108, 101, 110, 103, 116, 104]

/-- The header loop of the `CurlHandle` constructor as far as
`content_length` is concerned: for each header whose lowercased name is
`content-length`, overwrite the accumulator with `std::stoll` of the value;
a parse failure throws out of the constructor (`Except.error`). -/
def scanContentLength : List (List Nat × List Nat) → Option Int → Except Unit (Option Int)
  | [], acc => Except.ok acc
  | (k, v) :: rest, acc =>
    if ToLowerCase k = contentLengthBytes then
      match stollBytes v with
      | some n => scanContentLength rest (some n)
      | none => Except.error ()
    else scanContentLength rest acc

/-- The `if (request_body_)` block of the `CurlHandle` constructor: a POST
request configures post-mode, every other method upload-mode; a known
content length is forwarded as the explicit size option. -/
def uploadSetopts (method : Method) (hasBody : Bool) (cl : Option Int) : List CurlOpt :=
  if hasBody then
    if method = Method.kPost then
      [CurlOpt.post 1] ++ (match cl with | some n => [CurlOpt.postFieldSizeLarge n] | none => [])
    else
      [CurlOpt.upload 1] ++ (match cl with | some n => [CurlOpt.inFileSizeLarge n] | none => [])
  else []

/-- The body-upload configuration the `CurlHandle` constructor performs for
a request: scan the headers for `content-length`, then set the mode and
size options. -/
def curlHandleBodyConfig (req : RequestModel) : Except Unit (List CurlOpt) :=
  (scanContentLength req.headers none).map (uploadSetopts req.method req.hasBody)

/-- State of an `HttpServer`: `quitting_`, `current_connections_`, whether
`quit_event_` has been scheduled and not yet dispatched, whether
`quit_semaphore_` has been resumed (which is what lets `Quit` finish its
`co_await`), the server-wide stop source, and whether the listener has been
freed. -/
structure SrvState where
  quitting : Bool := false
  conn : Nat := 0
  quitEventPending : Bool := false
  semResumed : Bool := false
  stopRequested : Bool := false
  httpFreed : Bool := false
deriving DecidableEq, Repr

/-- The server state right after construction. -/
def initSrv : SrvState :=
  { quitting := false, conn := 0, quitEventPending := false
    semResumed := false, stopRequested := false, httpFreed := false }

/-- `HttpServer::Quit` up to its `co_await quit_semaphore_`: a second call
returns immediately (the `Bool` is false: the semaphore is not awaited); the
first call sets `quitting_`, requests server-wide stop, and schedules
`quit_event_` when no connections are live. -/
def QuitCall (st : SrvState) : SrvState × Bool :=
  if st.quitting then (st, false)
  else
    let st1 := { st with quitting := true, stopRequested := true }
    let st2 := if st1.conn = 0 then { st1 with quitEventPending := true } else st1
    (st2, true)

/-- `HttpServer::OnQuit`: the `quit_event_` handler frees the listener and
resumes `quit_semaphore_`. -/
def OnQuitEvent (st : SrvState) : SrvState :=
  { st with quitEventPending := false, httpFreed := true, semResumed := true }

/-- The `current_connections_++` performed by `HttpServer::OnHttpRequest`
before invoking the user handler (only reached when not quitting). -/
def beginRequest (st : SrvState) : SrvState := { st with conn := st.conn + 1 }

/-- The tail of `HttpServer::OnHttpRequest`: `current_connections_--`, and
if the count reaches zero while quitting, schedule `quit_event_`. -/
def endRequest (st : SrvState) : SrvState :=
  let st1 := { st with conn := st.conn - 1 }
  if st1.conn = 0 ∧ st1.quitting then { st1 with quitEventPending := true } else st1

/-- One interleaved step of the server: `OnHttpRequest` is a coroutine that
suspends across the user handler, so its connection-count increment and
decrement are separate steps; `Quit` and the `quit_event_` dispatch are the
other state-changing steps. -/
inductive SrvStep : SrvState → SrvState → Prop
  | stepBegin (st : SrvState) (h : st.quitting = false) : SrvStep st (beginRequest st)
  | stepFinish (st : SrvState) (h : 0 < st.conn) : SrvStep st (endRequest st)
  | stepQuit (st : SrvState) : SrvStep st (QuitCall st).1
  | stepOnQuit (st : SrvState) (h : st.quitEventPending = true) : SrvStep st (OnQuitEvent st)

/-- Server states reachable from the freshly constructed server. -/
inductive SrvReach : SrvState → Prop
  | init : SrvReach initSrv
  | step {st st2 : SrvState} : SrvReach st → SrvStep st st2 → SrvReach st2

/-- Client-visible actions `HttpServer::OnHttpRequest` performs on the
evhttp request. -/
inductive SAct
  | reply500
  | reply200
  | addHeader (k v : List Nat)
  | replyStart (s : Int)
  | sendChunk (c : List Nat)
  | replyEnd
  | resetCloseCb
deriving DecidableEq, Repr

/-- Behaviour of the user handler for one request: it either throws an
`HttpException` before producing a response, or returns a response whose
body yields the given chunks and (optionally) throws an `HttpException`
when the consumer asks for chunk `throwAfter` (0-based). -/
inductive HandlerBeh
  | throws
  | returns (status : Int) (headers : List (List Nat × List Nat))
      (chunks : List (List Nat)) (throwAfter : Option Nat)
deriving DecidableEq, Repr

/-- The `FOR_CO_AWAIT` body-streaming loop: the chunks actually written,
and whether body iteration raised. -/
def bodyIterActs (chunks : List (List Nat)) (throwAfter : Option Nat) :
    List SAct × Bool :=
  match throwAfter with
  | none => (chunks.map SAct.sendChunk, false)
  | some k =>
    if k < chunks.length then ((chunks.take k).map SAct.sendChunk, true)
    else (chunks.map SAct.sendChunk, false)

/-- Result of one full run of `HttpServer::OnHttpRequest`. -/
structure SrvRun where
  state : SrvState
  acts : List SAct
deriving DecidableEq, Repr

/-- The bytes of the URI `/quit`. -/
def quitUri : List Nat := [47, 113, 117, 105, 116]

/-- `HttpServer::OnHttpRequest`, run to completion for one request with the
given handler behaviour. When quitting, reply 500. On `/quit`, reply 200
and call `Quit`. Otherwise increment the connection count and invoke the
handler: an `HttpException` before the reply starts is answered with 500;
once `evhttp_send_reply_start` has run, the scope guard created right after
it detaches the close callback and calls `evhttp_send_reply_end` on every
exit, including unwinding on an `HttpException` raised by body iteration,
and the catch block then does nothing more. Finally the connection count is
decremented. -/
def OnHttpRequestRun (st : SrvState) (uri : List Nat) (beh : HandlerBeh) : SrvRun :=
  if st.quitting then { state := st, acts := [SAct.reply500] }
  else if uri = quitUri then { state := (QuitCall st).1, acts := [SAct.reply200] }
  else
    let st1 := beginRequest st
    match beh with
    | HandlerBeh.throws =>
      { state := endRequest st1, acts := [SAct.resetCloseCb, SAct.reply500] }
    | HandlerBeh.returns status headers chunks throwAfter =>
      let hdrActs := headers.map (fun kv => SAct.addHeader kv.1 kv.2)
      let body := bodyIterActs chunks throwAfter
      { state := endRequest st1
        acts := hdrActs ++ [SAct.replyStart status] ++ body.1
                  ++ [SAct.resetCloseCb, SAct.replyEnd] }

/-! ## Helper lemmas -/

/-- `ToLowerCase` output contains no ASCII uppercase byte. -/
theorem toLowerCase_not_upper (s : List Nat) :
    ∀ b ∈ ToLowerCase s, ¬(65 ≤ b ∧ b ≤ 90) := by
  intro b hb
  simp only [ToLowerCase, List.mem_map] at hb
  obtain ⟨a, _, hab⟩ := hb
  subst hab
  by_cases h : 65 ≤ a ∧ a ≤ 90
  · rw [if_pos h]
    omega
  · rw [if_neg h]
    exact h

/-- The head of `dropWhile p` fails `p`. -/
theorem head_dropWhile_not (p : Nat → Bool) :
    ∀ (l : List Nat) (b : Nat), (l.dropWhile p).head? = some b → p b = false := by
  intro l
  induction l with
  | nil => intro b hb; simp [List.dropWhile] at hb
  | cons a t ih =>
    intro b hb
    rw [List.dropWhile_cons] at hb
    by_cases hpa : p a = true
    · rw [if_pos hpa] at hb
      exact ih b hb
    · rw [if_neg hpa] at hb
      simp only [List.head?_cons, Option.some.injEq] at hb
      subst hb
      simpa using hpa

/-- The last byte of `trimEnd` is not whitespace. -/
theorem getLast_trimEnd_not_ws (l : List Nat) (b : Nat)
    (h : (trimEnd l).getLast? = some b) : isWs b = false := by
  unfold trimEnd at h
  rw [List.getLast?_reverse] at h
  exact head_dropWhile_not isWs _ b h

/-- `trimEnd` only removes a suffix, so a nonempty result keeps the head. -/
theorem head_trimEnd_eq (l : List Nat) (b : Nat)
    (h : (trimEnd l).head? = some b) : l.head? = some b := by
  have hsplit : l = trimEnd l ++ (l.reverse.takeWhile isWs).reverse := by
    conv_lhs =>
      rw [← List.reverse_reverse l,
          ← List.takeWhile_append_dropWhile (p := isWs) (l := l.reverse)]
    rw [List.reverse_append]
    rfl
  rw [hsplit]
  cases htr : trimEnd l with
  | nil => rw [htr] at h; simp at h
  | cons x xs =>
    rw [htr] at h
    simp only [List.head?_cons, Option.some.injEq] at h
    simp [h]

/-- `TrimWhitespace` output has no leading and no trailing whitespace. -/
theorem trimWhitespace_noEdgeWs (s : List Nat) :
    (∀ b, (TrimWhitespace s).head? = some b → isWs b = false) ∧
    (∀ b, (TrimWhitespace s).getLast? = some b → isWs b = false) := by
  constructor
  · intro b hb
    have hh := head_trimEnd_eq (trimStart s) b hb
    exact head_dropWhile_not isWs s b hh
  · intro b hb
    exact getLast_trimEnd_not_ws (trimStart s) b hb

/-! ## Claim theorems -/

/-- Claim C3: while a body stream owns the Handle, the write callback
returns the pause sentinel iff an unconsumed chunk sits in `data_` or
`GetBufferedByteCount()` is positive (leaving the stream untouched), and
otherwise it appends the bytes to `data_`, triggers `chunk_ready` and
accepts the full byte count. -/
theorem writeCallbackPausesIffBackpressure (g : GenState) (bytes : List Nat) :
    ((WriteCallback (OwnerModel.gen g) bytes).2 = WriteResult.paused ↔
      (g.data_ ≠ [] ∨ 0 < g.buffered)) ∧
    ((g.data_ ≠ [] ∨ 0 < g.buffered) →
      WriteCallback (OwnerModel.gen g) bytes = (OwnerModel.gen g, WriteResult.paused)) ∧
    (g.data_ = [] → g.buffered = 0 →
      WriteCallback (OwnerModel.gen g) bytes =
        (OwnerModel.gen
          { g with data_ := bytes, pending := activate GenEvent.chunkReady g.pending },
         WriteResult.accepted bytes.length)) := by
  refine ⟨?_, ?_, ?_⟩
  · by_cases h : g.data_ ≠ [] ∨ 0 < g.buffered
    · simp [WriteCallback, h]
    · simp [WriteCallback, h]
  · intro h
    simp [WriteCallback, h]
  · intro hd hb
    have h : ¬(g.data_ ≠ [] ∨ 0 < g.buffered) := by
      push_neg
      exact ⟨hd, by omega⟩
    simp [WriteCallback, h, hd, hb]

/-- Claim C3 witness: a backpressured stream refuses bytes; a drained one
buffers them and triggers `chunk_ready`. -/
theorem writeCallbackPausesIffBackpressure_witness :
    WriteCallback (OwnerModel.gen { genInit with buffered := 1 }) [7] =
      (OwnerModel.gen { genInit with buffered := 1 }, WriteResult.paused) ∧
    WriteCallback (OwnerModel.gen genInit) [7] =
      (OwnerModel.gen
        { genInit with data_ := [7], pending := activate GenEvent.chunkReady genInit.pending },
       WriteResult.accepted 1) := by
  constructor
  · exact (writeCallbackPausesIffBackpressure { genInit with buffered := 1 } [7]).2.1
      (Or.inr (by decide))
  · exact (writeCallbackPausesIffBackpressure genInit [7]).2.2 rfl rfl

/-- Claim C9: `Resume` issues `curl_easy_pause(CURLPAUSE_RECV_CONT)` iff no
terminal status has been recorded (`status_ == -1`) and no error is set;
after the transfer-completion path (`ProcessEvents`, whose CURLcode result
is nonnegative) or the error path (`HandleException`) it never touches the
transport handle. -/
theorem resumeOnlyWhileLive :
    (∀ g : GenState, Resume g = true ↔ (g.status = -1 ∧ g.exc = none)) ∧
    (∀ (g : GenState) (result : Int), 0 ≤ result →
      Resume (ProcessEventsGenDone result g) = false) ∧
    (∀ (h : HandleModel) (g g2 : GenState) (e : Err),
      (HandleException h (OwnerModel.gen g) e).owner = OwnerModel.gen g2 →
      Resume g2 = false) := by
  refine ⟨?_, ?_, ?_⟩
  · intro g
    simp [Resume]
  · intro g result hr
    have hne : ¬(result = -1) := by omega
    simp only [ProcessEventsGenDone]
    split_ifs <;> simp [Resume, hne]
  · intro h g g2 e hown
    simp only [HandleException, HxResult.mk.injEq, OwnerModel.gen.injEq] at hown
    cases hcw : g.closedWith with
    | none =>
      rw [show (CloseErr { g with exc := some e } e).1 =
            { g with exc := some e, closedWith := some (CloseVal.failure e) } by
          simp [CloseErr, hcw]] at hown
      rw [← hown]
      simp [Resume]
    | some v =>
      rw [show (CloseErr { g with exc := some e } e).1 = { g with exc := some e } by
          simp [CloseErr, hcw]] at hown
      rw [← hown]
      simp [Resume]

/-- Claim C9 witness: a live stream unpauses; completed or failed ones do
not. -/
theorem resumeOnlyWhileLive_witness :
    Resume genInit = true ∧
    Resume (ProcessEventsGenDone 0 genInit) = false ∧
    Resume { genInit with
             exc := some Err.interrupted
             closedWith := some (CloseVal.failure Err.interrupted) } = false := by
  refine ⟨(resumeOnlyWhileLive.1 genInit).2 ⟨rfl, rfl⟩,
          resumeOnlyWhileLive.2.1 genInit 0 (by omega),
          resumeOnlyWhileLive.2.2 {} genInit _ Err.interrupted (by decide)⟩

/-- Claim C5: the stop callback (`OnCancel`) invokes `HandleException` with
an interrupted error, which removes the Handle from the multiplexer,
records the error on the current owner, and resumes any waiter: an owning
operation gets the error and its awaiting coroutine resumed, an owning
body stream is closed with the error. -/
theorem stopCallbackRoutesInterruptedToOwner (h : HandleModel) (ow : OwnerModel) :
    (OnCancel h ow).handle.registered = false ∧
    (∀ o : OpState, ow = OwnerModel.op o →
      (OnCancel h ow).owner =
        OwnerModel.op { o with exc := some Err.interrupted, awaiting := false } ∧
      (OnCancel h ow).resumedWaiter = o.awaiting) ∧
    (∀ g : GenState, ow = OwnerModel.gen g → g.closedWith = none →
      (OnCancel h ow).owner =
        OwnerModel.gen { g with
                         exc := some Err.interrupted
                         closedWith := some (CloseVal.failure Err.interrupted) } ∧
      (OnCancel h ow).obs = [Obs.closedErr Err.interrupted]) := by
  refine ⟨?_, ?_, ?_⟩
  · cases ow <;> simp [OnCancel, HandleException, Cleanup]
  · intro o ho
    subst ho
    simp [OnCancel, HandleException]
  · intro g hg hcw
    subst hg
    simp [OnCancel, HandleException, CloseErr, hcw]

/-- Claim C5 witness: cancelling an awaited operation resumes its waiter
with the interrupted error; cancelling a live body stream closes it with
the interrupted error; both unregister the Handle. -/
theorem stopCallbackRoutesInterruptedToOwner_witness :
    (OnCancel {} (OwnerModel.op { awaiting := true })).handle.registered = false ∧
    (OnCancel {} (OwnerModel.op { awaiting := true })).resumedWaiter = true ∧
    (OnCancel {} (OwnerModel.gen genInit)).obs = [Obs.closedErr Err.interrupted] := by
  refine ⟨(stopCallbackRoutesInterruptedToOwner {} (OwnerModel.op { awaiting := true })).1,
          ?_, ?_⟩
  · have h := ((stopCallbackRoutesInterruptedToOwner {}
      (OwnerModel.op { awaiting := true })).2.1 { awaiting := true } rfl).2
    exact h.trans (by decide)
  · exact ((stopCallbackRoutesInterruptedToOwner {}
      (OwnerModel.gen genInit)).2.2 genInit rfl rfl).2

/-- Claim C1 (evaluation at the failing input): when the transport reports
successful completion (`CURLE_OK`, i.e. result 0) while the body stream
owns the Handle, `ProcessEvents` stores the curl result code — not the
HTTP status of the response — into `status_`, and `OnBodyReady` closes the
stream with it. For a response whose HTTP status was 200 the stream is
closed with 0: the HTTP status is never stored on the generator, so the
close with 200 the claim requires cannot be observed. -/
theorem curlBodyStreamClosedWithTransportResultNotHttpStatus :
    drainEvents 4 (ProcessEventsGenDone 0 genInit) = [Obs.closedStatus 0] ∧
    Obs.closedStatus 200 ∉ drainEvents 4 (ProcessEventsGenDone 0 genInit) := by
  decide

/-- Claim C2: for a live body stream (no terminal status, no error,
`body_ready` not yet fired) at transfer completion (a CURLcode is
nonnegative): if `chunk_ready` is still in the active queue, `body_ready`
is not triggered by `ProcessEvents` and fires only after that `chunk_ready`
drains, so the consumer sees the final chunk strictly before the terminal
close; if no chunk is pending, `body_ready` is triggered immediately and
the drain yields only the terminal close. -/
theorem bodyReadyAfterPendingChunkDrains (g : GenState) (result : Int)
    (hs : g.status = -1) (hf : g.bodyReadyFired = false) (he : g.exc = none)
    (hc : g.closedWith = none) (hr : 0 ≤ result) :
    (g.pending = [GenEvent.chunkReady] →
      (ProcessEventsGenDone result g).pending = [GenEvent.chunkReady] ∧
      drainEvents 4 (ProcessEventsGenDone result g) =
        [Obs.received g.data_,
         if result = 0 then Obs.closedStatus result else Obs.closedErr (Err.http result)]) ∧
    (g.pending = [] →
      (ProcessEventsGenDone result g).pending = [GenEvent.bodyReady] ∧
      drainEvents 4 (ProcessEventsGenDone result g) =
        [if result = 0 then Obs.closedStatus result else Obs.closedErr (Err.http result)]) := by
  have hr1 : ¬((result : Int) = -1) := by omega
  obtain ⟨status, exc, data, fired, buffered, pending, closedWith⟩ := g
  simp only at hs hf he hc
  subst hs hf he hc
  constructor
  · intro hp
    simp only at hp
    subst hp
    by_cases hres : result = 0
    · subst hres
      simp [ProcessEventsGenDone, drainEvents, dispatchGenEvent, OnChunkReady,
            OnBodyReady, ReceivedData, CloseStatus, CloseErr, activate]
    · simp [ProcessEventsGenDone, drainEvents, dispatchGenEvent, OnChunkReady,
            OnBodyReady, ReceivedData, CloseStatus, CloseErr, activate, hres, hr1]
  · intro hp
    simp only at hp
    subst hp
    by_cases hres : result = 0
    · subst hres
      simp [ProcessEventsGenDone, drainEvents, dispatchGenEvent, OnChunkReady,
            OnBodyReady, ReceivedData, CloseStatus, CloseErr, activate]
    · simp [ProcessEventsGenDone, drainEvents, dispatchGenEvent, OnChunkReady,
            OnBodyReady, ReceivedData, CloseStatus, CloseErr, activate, hres, hr1]

/-- Claim C2 witness: with a chunk pending at successful completion the
consumer sees the chunk and then the close; with none pending at a failed
completion the close fires immediately. -/
theorem bodyReadyAfterPendingChunkDrains_witness :
    drainEvents 4 (ProcessEventsGenDone 0
      { genInit with data_ := [104], pending := [GenEvent.chunkReady] }) =
      [Obs.received [104], Obs.closedStatus 0] ∧
    drainEvents 4 (ProcessEventsGenDone 23 genInit) = [Obs.closedErr (Err.http 23)] := by
  constructor
  · have h := ((bodyReadyAfterPendingChunkDrains
      { genInit with data_ := [104], pending := [GenEvent.chunkReady] } 0
      rfl rfl rfl rfl (by omega)).1 rfl).2
    exact h.trans (by decide)
  · have h := ((bodyReadyAfterPendingChunkDrains genInit 23
      rfl rfl rfl rfl (by omega)).2 rfl).2
    exact h.trans (by decide)

/-- Claim C6: while a pending operation owns the Handle, a header line
containing `:` is appended to the header list with the name before the
first colon lowercased (no uppercase byte survives) and the value after it
whitespace-trimmed (no leading or trailing whitespace survives); a line
without `:` that begins with `HTTP` clears the accumulated header list and
records the parsed status code on the operation. -/
theorem headerCallbackLowercasesAndTrims (o : OpState) (line : List Nat) :
    (∀ i, findColon line = some i →
      HeaderCallback (OwnerModel.op o) line =
        (OwnerModel.op { o with headers :=
            o.headers ++ [(ToLowerCase (line.take i), TrimWhitespace (line.drop (i + 1)))] },
         line.length) ∧
      (∀ b ∈ ToLowerCase (line.take i), ¬(65 ≤ b ∧ b ≤ 90)) ∧
      (∀ b, (TrimWhitespace (line.drop (i + 1))).head? = some b → isWs b = false) ∧
      (∀ b, (TrimWhitespace (line.drop (i + 1))).getLast? = some b → isWs b = false)) ∧
    (findColon line = none → startsWithHTTP line = true →
      HeaderCallback (OwnerModel.op o) line =
        (OwnerModel.op { o with headers := [], status := parseStatusLine line },
         line.length)) := by
  constructor
  · intro i hi
    refine ⟨by simp [HeaderCallback, hi], toLowerCase_not_upper _,
            (trimWhitespace_noEdgeWs _).1, (trimWhitespace_noEdgeWs _).2⟩
  · intro hn hh
    simp [HeaderCallback, hn, hh]

/-- Claim C6 witness: the line `X-A: b ` is recorded as the header
`x-a: b`, and the line `HTTP/1.1 200 OK` resets the headers and records
status 200. -/
theorem headerCallbackLowercasesAndTrims_witness :
    HeaderCallback (OwnerModel.op { headers := [([1], [2])] }) [88, 45, 65, 58, 32, 98, 32] =
      (OwnerModel.op { headers := [([1], [2]), ([120, 45, 97], [98])] }, 7) ∧
    HeaderCallback (OwnerModel.op { headers := [([1], [2])] })
        [72, 84, 84, 80, 47, 49, 46, 49, 32, 50, 48, 48, 32, 79, 75] =
      (OwnerModel.op { headers := [], status := 200 }, 15) := by
  constructor
  · have h := ((headerCallbackLowercasesAndTrims { headers := [([1], [2])] }
      [88, 45, 65, 58, 32, 98, 32]).1 3 (by decide)).1
    exact h.trans (by decide)
  · have h := (headerCallbackLowercasesAndTrims { headers := [([1], [2])] }
      [72, 84, 84, 80, 47, 49, 46, 49, 32, 50, 48, 48, 32, 79, 75]).2 (by decide) (by decide)
    exact h.trans (by decide)

/-- Claim C7: for a request that carries a body, a parsed `content-length`
header value is forwarded to the transport as the explicit body size
(`CURLOPT_POSTFIELDSIZE_LARGE` resp. `CURLOPT_INFILESIZE_LARGE`); a POST
request is configured in post-mode (`CURLOPT_POST`), every other method in
upload-mode (`CURLOPT_UPLOAD`). -/
theorem uploadConfigForwardsContentLength (req : RequestModel) (n : Int)
    (hb : req.hasBody = true) :
    (scanContentLength req.headers none = Except.ok (some n) →
      curlHandleBodyConfig req = Except.ok
        (if req.method = Method.kPost then [CurlOpt.post 1, CurlOpt.postFieldSizeLarge n]
         else [CurlOpt.upload 1, CurlOpt.inFileSizeLarge n])) ∧
    (scanContentLength req.headers none = Except.ok none →
      curlHandleBodyConfig req = Except.ok
        (if req.method = Method.kPost then [CurlOpt.post 1] else [CurlOpt.upload 1])) := by
  constructor <;> intro hcl <;>
    simp only [curlHandleBodyConfig, hcl, Except.map, uploadSetopts, hb, if_true] <;>
    by_cases hm : req.method = Method.kPost <;> simp [hm]

/-- Claim C7 witness: a POST with `Content-Length: 11` and a body is
configured in post-mode with explicit size 11; a PUT with a body and no
content length is configured in plain upload-mode. -/
theorem uploadConfigForwardsContentLength_witness :
    curlHandleBodyConfig
      { method := Method.kPost
        headers := [([67, 111, 110, 116, 101, 110, 116, 45, 76, 101, 110, 103, 116, 104],
                     [49, 49])]
        hasBody := true } =
      Except.ok [CurlOpt.post 1, CurlOpt.postFieldSizeLarge 11] ∧
    curlHandleBodyConfig { method := Method.kPut, headers := [], hasBody := true } =
      Except.ok [CurlOpt.upload 1] := by
  constructor
  · have h := (uploadConfigForwardsContentLength
      { method := Method.kPost
        headers := [([67, 111, 110, 116, 101, 110, 116, 45, 76, 101, 110, 103, 116, 104],
                     [49, 49])]
        hasBody := true } 11 rfl).1 rfl
    exact h
  · have h := (uploadConfigForwardsContentLength
      { method := Method.kPut, headers := [], hasBody := true } 0 rfl).2 rfl
    exact h

/-- Claim C10: when the transfer completes successfully while the pending
operation still owns the Handle, `ProcessEvents` records the HTTP response
code and sets `no_body_`, and `await_resume` then returns a `Response`
whose body generator was fed the header-phase buffered bytes and
immediately closed with the response status, so the consumer observes at
most those bytes followed by the terminal status. -/
theorem noBodyResponseClosedWithStatus (o : OpState) (code : Int) (he : o.exc = none) :
    awaitResumeOp (ProcessEventsOpDone 0 code o).1 =
      Except.ok
        { status := code
          headers := o.headers
          body := { status := -1, exc := none, data_ := [], bodyReadyFired := false
                    buffered := o.body_.length, pending := []
                    closedWith := some (CloseVal.status code) }
          bodyObs := [Obs.received o.body_, Obs.closedStatus code] } := by
  simp [ProcessEventsOpDone, awaitResumeOp, he, mkBodyGen, ReceivedData, CloseStatus, genInit]

/-- Claim C10 witness: an operation holding two header-phase bytes whose
transfer completes with HTTP status 200 resolves to a response whose body
stream was handed those bytes and closed with 200. -/
theorem noBodyResponseClosedWithStatus_witness :
    awaitResumeOp (ProcessEventsOpDone 0 200 { body_ := [104, 105], awaiting := true }).1 =
      Except.ok
        { status := 200
          headers := []
          body := { status := -1, exc := none, data_ := [], bodyReadyFired := false
                    buffered := 2, pending := []
                    closedWith := some (CloseVal.status 200) }
          bodyObs := [Obs.received [104, 105], Obs.closedStatus 200] } := by
  have h := noBodyResponseClosedWithStatus { body_ := [104, 105], awaiting := true } 200 rfl
  exact h

/-- The server's shutdown invariant: `quit_event_` is scheduled, and the
quit semaphore is resumed, only while quitting with no live connections. -/
def srvInv (st : SrvState) : Prop :=
  (st.quitEventPending = true ∨ st.semResumed = true) → (st.conn = 0 ∧ st.quitting = true)

/-- The shutdown invariant holds in every reachable server state. -/
theorem srvInv_of_reach : ∀ st, SrvReach st → srvInv st := by
  intro st h
  induction h with
  | init => intro hp; simp [initSrv] at hp
  | @step st st2 _ hstep ih =>
    cases hstep with
    | stepBegin hq =>
      intro hp
      have hp0 : st.quitEventPending = true ∨ st.semResumed = true := by
        simpa [beginRequest] using hp
      have := ih hp0
      rw [hq] at this
      exact absurd this.2 (by simp)
    | stepFinish hcgt =>
      by_cases hif : st.conn - 1 = 0 ∧ st.quitting = true
      · intro _
        have h1 := hif.1
        have h2 := hif.2
        simp only [endRequest]
        split_ifs
        all_goals simp_all
      · intro hp
        have hp0 : st.quitEventPending = true ∨ st.semResumed = true := by
          simpa [endRequest, if_neg (show ¬(st.conn - 1 = 0 ∧ st.quitting = true) by
            simpa using hif)] using hp
        have := ih hp0
        omega
    | stepQuit =>
      by_cases hq : st.quitting = true
      · intro hp
        have hp0 : st.quitEventPending = true ∨ st.semResumed = true := by
          simpa [QuitCall, hq] using hp
        simpa [QuitCall, hq] using ih hp0
      · have hq0 : st.quitting = false := by
          cases hqq : st.quitting
          · rfl
          · exact absurd hqq hq
        by_cases hcz : st.conn = 0
        · intro _
          simp [QuitCall, hq0, hcz]
        · intro hp
          have hp0 : st.quitEventPending = true ∨ st.semResumed = true := by
            simpa [QuitCall, hq0, hcz] using hp
          have := ih hp0
          rw [hq0] at this
          exact absurd this.2 (by simp)
    | stepOnQuit hpend =>
      intro _
      have := ih (Or.inl hpend)
      simpa [OnQuitEvent] using this

/-- Claim C4: in every reachable server state, the quit semaphore that lets
`Quit` resolve has been resumed (and `quit_event_` scheduled — by `Quit`
itself or by the request handler's final decrement) only once
`current_connections_` is zero while quitting; and a `Quit` call on a
server that is already quitting changes nothing and resolves immediately
(it never awaits the semaphore). -/
theorem quitResolvesOnlyAfterConnectionsDrain :
    (∀ st : SrvState, SrvReach st →
      (st.quitEventPending = true ∨ st.semResumed = true) →
      st.conn = 0 ∧ st.quitting = true) ∧
    (∀ st : SrvState, st.quitting = true → QuitCall st = (st, false)) := by
  constructor
  · intro st h hp
    exact srvInv_of_reach st h hp
  · intro st hq
    simp [QuitCall, hq]

/-- Claim C4 witness: after `Quit` on an idle server and the `quit_event_`
dispatch, the reachable state has zero connections, and a second `Quit` is
a no-op. -/
theorem quitResolvesOnlyAfterConnectionsDrain_witness :
    (OnQuitEvent (QuitCall initSrv).1).conn = 0 ∧
    QuitCall (OnQuitEvent (QuitCall initSrv).1) = (OnQuitEvent (QuitCall initSrv).1, false) := by
  have hreach : SrvReach (OnQuitEvent (QuitCall initSrv).1) :=
    SrvReach.step (SrvReach.step SrvReach.init (SrvStep.stepQuit initSrv))
      (SrvStep.stepOnQuit (QuitCall initSrv).1 (by decide))
  exact ⟨(quitResolvesOnlyAfterConnectionsDrain.1 _ hreach (Or.inr (by decide))).1,
         quitResolvesOnlyAfterConnectionsDrain.2 _ (by decide)⟩

/-- Claim C8 counterexample: a handler on a live server starts a 200 reply
and its body raises an `HttpException` after the first of two chunks. The
second chunk is indeed never sent, but the reply IS finalized: the scope
guard created after `evhttp_send_reply_start` runs `evhttp_send_reply_end`
while unwinding, contradicting the claim that no reply finalization
happens after a post-reply-start error. -/
theorem replyEndSentAfterMidBodyError :
    SAct.replyStart 200 ∈
      (OnHttpRequestRun initSrv [47] (HandlerBeh.returns 200 [] [[104], [105]] (some 1))).acts ∧
    SAct.sendChunk [105] ∉
      (OnHttpRequestRun initSrv [47] (HandlerBeh.returns 200 [] [[104], [105]] (some 1))).acts ∧
    SAct.replyEnd ∈
      (OnHttpRequestRun initSrv [47] (HandlerBeh.returns 200 [] [[104], [105]] (some 1))).acts := by
  decide

/-- Claim C8 (amended): while quitting every request is answered 500; a
handler `HttpException` before reply-start is answered 500 (after
detaching the close callback) and the server keeps running; an
`HttpException` after reply-start stops further chunks, and the scope
guard detaches the close callback and finalizes the reply with
`evhttp_send_reply_end` — no 500 is sent for that request — while the
server keeps running (the connection count is decremented normally). -/
theorem serverErrorHandlingAmended (st : SrvState) (uri : List Nat) :
    (st.quitting = true → ∀ beh, (OnHttpRequestRun st uri beh).acts = [SAct.reply500]) ∧
    (st.quitting = false → uri ≠ quitUri →
      OnHttpRequestRun st uri HandlerBeh.throws =
        { state := endRequest (beginRequest st)
          acts := [SAct.resetCloseCb, SAct.reply500] }) ∧
    (∀ s hs cs k, st.quitting = false → uri ≠ quitUri → k < cs.length →
      (OnHttpRequestRun st uri (HandlerBeh.returns s hs cs (some k))).acts =
        hs.map (fun kv => SAct.addHeader kv.1 kv.2) ++ [SAct.replyStart s]
          ++ (cs.take k).map SAct.sendChunk ++ [SAct.resetCloseCb, SAct.replyEnd] ∧
      (OnHttpRequestRun st uri (HandlerBeh.returns s hs cs (some k))).state =
        endRequest (beginRequest st)) ∧
    (st.quitting = false → (endRequest (beginRequest st)).conn = st.conn) := by
  refine ⟨?_, ?_, ?_, ?_⟩
  · intro hq beh
    simp [OnHttpRequestRun, hq]
  · intro hq hu
    simp [OnHttpRequestRun, hq, hu]
  · intro s hs cs k hq hu hk
    constructor
    · simp [OnHttpRequestRun, hq, hu, bodyIterActs, hk]
    · simp [OnHttpRequestRun, hq, hu]
  · intro hq
    simp [endRequest, beginRequest, hq]

/-- Claim C8 witness: concrete runs of the three cases — quitting, error
before reply-start, and error after the first of two chunks. -/
theorem serverErrorHandlingAmended_witness :
    (OnHttpRequestRun { initSrv with quitting := true } [47] HandlerBeh.throws).acts =
      [SAct.reply500] ∧
    OnHttpRequestRun initSrv [47] HandlerBeh.throws =
      { state := endRequest (beginRequest initSrv)
        acts := [SAct.resetCloseCb, SAct.reply500] } ∧
    (OnHttpRequestRun initSrv [47] (HandlerBeh.returns 200 [] [[104], [105]] (some 1))).acts =
      [SAct.replyStart 200, SAct.sendChunk [104], SAct.resetCloseCb, SAct.replyEnd] := by
  refine ⟨(serverErrorHandlingAmended { initSrv with quitting := true } [47]).1 rfl
            HandlerBeh.throws,
          (serverErrorHandlingAmended initSrv [47]).2.1 rfl (by decide), ?_⟩
  have h := ((serverErrorHandlingAmended initSrv [47]).2.2.1 200 [] [[104], [105]] 1
    rfl (by decide) (by decide)).1
  exact h.trans (by decide)

end CoroHttp
